import Mathlib

/-!
Shallow embedding of the `colorize` Go package (dan-almenar/colorize,
file `colorize.go`) and verification of its specification claims.

Modelling conventions:
* `uint8` values are `Fin 256`; arithmetic that the source performs on
  `uint8` is modelled on `ℕ` with an explicit `% 256` where the source
  wraps.
* The system capability globals `trueColor` / `xTerm` (read from the
  environment in the source) are passed as explicit `Bool` parameters.
* Go `error` values are modelled as `Option String` (the error message
  produced by `colorizeErr.Error()` / `fmt.Errorf`), with `none` = `nil`.
* The float computation `math.Round(float64(c)/scalingFactor + 0.4)` is
  modelled with exact rational arithmetic.  This is faithful: for every
  `c ≤ 255` the exact value `c/51 + 2/5 = (10c + 204)/510` is at distance
  at least `1/510 ≈ 1.96e-3` from every half-integer (numerators
  `10c + 204 ≡ 4 [MOD 10]` never meet `255k ≡ 0 or 5 [MOD 10]`), while the
  accumulated float64 rounding error of the two operations is below
  `2^-49 ≈ 1.8e-15`, so `math.Round` of the float value and rounding the
  exact rational agree (and the value is never exactly half-way, so
  round-half-away-from-zero agrees with `round`).
-/

namespace Colorize

/-- Model of `type color struct` from `colorize.go`: an RGB color with `uint8`
components. -/
structure color where
  r : Fin 256
  g : Fin 256
  b : Fin 256
  deriving DecidableEq, Repr

/-- Model of `ColorContext` from the source, a string type. -/
abbrev ColorContext := String

/-- constant `background ColorContext = "background"`. -/
def background : ColorContext := "background"

/-- constant `foreground ColorContext = "foreground"`. -/
def foreground : ColorContext := "foreground"

/-- Model of `type Options struct` from the source.  A Go empty string means
"no color requested". -/
structure Options where
  BgColor : String
  FgColor : String
  Styles : List String
  deriving DecidableEq, Repr

/- Escape-code constants from the source. -/

def fgTrueColor : String := "\x1b[38;2;"
def bgTrueColor : String := "\x1b[48;2;"
def fgXterm : String := "\x1b[38;5;"
def bgXterm : String := "\x1b[48;5;"
def reset : String := "\x1b[0m"

/-- Constant `scalingFactor = 255 / 5`: Go untyped-integer constant division,
value 51. -/
def scalingFactor : ℕ := 255 / 5

def xTermBlack : ℕ := 0
def xTermWhite : ℕ := 15
def grayOffset : ℕ := 232
def colorOffset : ℕ := 16
def colorFactor1 : ℕ := 36
def colorFactor2 : ℕ := 6

/-- The `styles` map from the source; Go map lookup yields the zero value
`""` for a missing key. -/
def stylesLookup (s : String) : String :=
  if s = "bold" then "\x1b[1m"
  else if s = "italic" then "\x1b[3m"
  else if s = "underline" then "\x1b[4m"
  else if s = "blink" then "\x1b[5m"
  else if s = "reverse" then "\x1b[7m"
  else if s = "hidden" then "\x1b[8m"
  else if s = "stroke" then "\x1b[9m"
  else ""

/-- One channel of the base-6 bucket computation inside `rgbToXterm`:
`uint8(math.Round((float64(c) / scalingFactor) + 0.4))`, modelled with
exact rational arithmetic (see the file header for why this is exact). -/
def level (c : ℕ) : ℕ :=
  (round ((c : ℚ) / (scalingFactor : ℚ) + 0.4)).toNat

/-- Model of `rgbToXterm` from the source.  All arithmetic in the source is on
`uint8`; every intermediate value is below 256 here (the levels are at
most 5 for byte inputs, proved below), so a single `% 256` per branch
models the wrap-around faithfully.  In the gray branch the source
computes `rInt - 1` with `rInt ≥ 1` (it sits under the `rInt == 0` test),
so truncated `ℕ` subtraction coincides with `uint8` subtraction. -/
def rgbToXterm (col : color) : ℕ :=
  let rInt := level col.r.val
  let gInt := level col.g.val
  let bInt := level col.b.val
  if rInt = gInt ∧ gInt = bInt then
    if rInt = 0 then xTermBlack
    else if rInt = 5 then xTermWhite
    else (grayOffset + (rInt - 1) * 5) % 256
  else
    (colorOffset + colorFactor1 * rInt + colorFactor2 * gInt + bInt) % 256

/-- Closed form of `level`: rounding `c/51 + 2/5` to the nearest integer
is the natural-number division `(10c + 459) / 510`. -/
theorem level_eq (c : ℕ) : level c = (10 * c + 459) / 510 := by
  unfold level scalingFactor
  have h : (c : ℚ) / ((255 / 5 : ℕ) : ℚ) + 0.4 + 1 / 2
      = ((10 * c + 459 : ℕ) : ℚ) / ((510 : ℕ) : ℚ) := by
    push_cast
    ring
  rw [round_eq, h, Int.floor_toNat, Nat.floor_div_eq_div]

/-- For byte inputs the bucket level never exceeds 5. -/
theorem level_le_five (c : ℕ) (hc : c ≤ 255) : level c ≤ 5 := by
  rw [level_eq]
  omega

/- ### Hex validation and parsing -/

/-- Character class `[0-9a-fA-F]` of the source regex. -/
def isHexDigit (c : Char) : Bool :=
  (48 ≤ c.toNat && c.toNat ≤ 57) ||
  (97 ≤ c.toNat && c.toNat ≤ 102) ||
  (65 ≤ c.toNat && c.toNat ≤ 70)

/-- Value of one hex digit, as `strconv.ParseUint(_, 16, _)` reads it. -/
def hexDigitVal (c : Char) : ℕ :=
  if 48 ≤ c.toNat && c.toNat ≤ 57 then c.toNat - 48
  else if 97 ≤ c.toNat && c.toNat ≤ 102 then c.toNat - 87
  else c.toNat - 55

/-- The optional leading `#` of the source regex `^#?...$`.  Committing to
stripping a leading `#` is equivalent to the regex alternative, because
`#` itself is not in `[0-9a-fA-F]` so a match can never keep a leading
`#` in the digit groups. -/
def stripHash : List Char → List Char
  | c :: rest => if c = '#' then rest else c :: rest
  | [] => []

/-- Whether `regex = ^#?([0-9a-fA-F]{2})([0-9a-fA-F]{2})([0-9a-fA-F]{2})$`
matches the whole string (`regex.MatchString`). -/
def regexMatch (s : String) : Bool :=
  match stripHash s.data with
  | [a, b, c, d, e, f] =>
    isHexDigit a && isHexDigit b && isHexDigit c &&
    isHexDigit d && isHexDigit e && isHexDigit f
  | _ => false

/-- Message of `newColorizeErr("HEXERR", ...)` as rendered by
`colorizeErr.Error()`. -/
def hexErrMsg (hex : String) : String :=
  "HEXERR: invalid hex code: " ++ hex

/-- Message of `newColorizeErr("SYSNOCOLOR", ...)` as rendered by
`colorizeErr.Error()`. -/
def sysNoColorMsg : String :=
  "SYSNOCOLOR: System does not support true color or xterm"

/-- Message of `fmt.Errorf("No options provided")`. -/
def noOptionsMsg : String := "No options provided"

/-- Model of `validateHex` from the source: `none` models a `nil` error. -/
def validateHex (hex : String) : Option String :=
  if regexMatch hex then none else some (hexErrMsg hex)

/-- One captured 2-digit group parsed by
`strconv.ParseUint(match[i], 16, 8)` followed by the `uint8` conversion.
Two hex digits are at most `16 * 15 + 15 = 255`, so the `% 256` is a
no-op; it only supplies the `Fin` bound. -/
def byteOfChars (hi lo : Char) : Fin 256 :=
  ⟨(16 * hexDigitVal hi + hexDigitVal lo) % 256, Nat.mod_lt _ (by norm_num)⟩

/-- Model of `getColor` from the source.  After `validateHex` succeeds the match is
guaranteed to have exactly six digit characters, so the catch-all arm is
unreachable (the Go code relies on the same invariant: "errors are
omitted due to regex"). -/
def getColor (hex : String) : Except String color :=
  match validateHex hex with
  | some e => Except.error e
  | none =>
    match stripHash hex.data with
    | [a, b, c, d, e, f] =>
      Except.ok ⟨byteOfChars a b, byteOfChars c d, byteOfChars e f⟩
    | _ => Except.ok ⟨0, 0, 0⟩

/- ### Escape-code generation -/

/-- Model of `getTCCode` from the source: `fmt.Sprintf("%s%d;%d;%dm", pre, r, g, b)`. -/
def getTCCode (col : color) (ctx : ColorContext) : String :=
  if ctx = background then
    bgTrueColor ++ toString col.r.val ++ ";" ++ toString col.g.val ++ ";" ++
      toString col.b.val ++ "m"
  else
    fgTrueColor ++ toString col.r.val ++ ";" ++ toString col.g.val ++ ";" ++
      toString col.b.val ++ "m"

/-- Model of `getXTCode` from the source: `fmt.Sprintf("%s%dm", pre, rgbToXterm(col))`. -/
def getXTCode (col : color) (ctx : ColorContext) : String :=
  if ctx = background then
    bgXterm ++ toString (rgbToXterm col) ++ "m"
  else
    fgXterm ++ toString (rgbToXterm col) ++ "m"

/-- Model of `GetColor` from the source, with the capability globals passed
explicitly.  The result pairs the code string with the error. -/
def GetColor (trueColor xTerm : Bool) (hex : String) (ctx : ColorContext) :
    String × Option String :=
  match getColor hex with
  | Except.error e => ("", some e)
  | Except.ok colorPtr =>
    if trueColor then (getTCCode colorPtr ctx, none)
    else if xTerm then (getXTCode colorPtr ctx, none)
    else ("", some sysNoColorMsg)

/- ### FormatText and its wrappers -/

/-- One color block of `FormatText`'s body: skip when the option string is
empty, otherwise `getColor` (propagating its error) and append the
generated escape code to the builder. -/
def appendColorCode (gen : color → ColorContext → String) (hexStr : String)
    (ctx : ColorContext) (acc : String) : Except String String :=
  if hexStr = "" then Except.ok acc
  else
    match getColor hexStr with
    | Except.error e => Except.error e
    | Except.ok col => Except.ok (acc ++ gen col ctx)

/-- The builder accumulation of `FormatText` once the two guard clauses
have passed: style codes in order, then the background code, then the
foreground code.  The source branches once on `trueColor` to pick between
`getTCCode` and `getXTCode` (the `else` branch is the xterm path, which
the guard guarantees is supported there). -/
def buildCodes (trueColor : Bool) (opts : Options) : Except String String :=
  let b0 := String.join (opts.Styles.map stylesLookup)
  let gen := if trueColor then getTCCode else getXTCode
  match appendColorCode gen opts.BgColor background b0 with
  | Except.error e => Except.error e
  | Except.ok b1 => appendColorCode gen opts.FgColor foreground b1

/-- Model of `FormatText` from the source.  `none` for `options` models a `nil`
pointer.  The final length test reproduces
`if len(builder.String()) == len(text)` from the source (the builder
holds `codes ++ text` at that point). -/
def FormatText (trueColor xTerm : Bool) (text : String)
    (options : Option Options) : String × Option String :=
  match options with
  | none => (text, some noOptionsMsg)
  | some opts =>
    if opts.BgColor = "" ∧ opts.FgColor = "" ∧ opts.Styles = [] then
      (text, some noOptionsMsg)
    else if trueColor = false ∧ xTerm = false then
      (text, some sysNoColorMsg)
    else
      match buildCodes trueColor opts with
      | Except.error e => (text, some e)
      | Except.ok codes =>
        let out := codes ++ text
        if out.length = text.length then (out, none)
        else (out ++ reset, none)

/-- Model of `ForegroundText` from the source. -/
def ForegroundText (trueColor xTerm : Bool) (text : String) (c : String) :
    String × Option String :=
  FormatText trueColor xTerm text (some ⟨"", c, []⟩)

/-- Model of `BackgroundText` from the source. -/
def BackgroundText (trueColor xTerm : Bool) (text : String) (c : String) :
    String × Option String :=
  FormatText trueColor xTerm text (some ⟨c, "", []⟩)

/-- Model of `StyleText` from the source: the `FormatText` error is discarded. -/
def StyleText (trueColor xTerm : Bool) (text : String)
    (styleNames : List String) : String :=
  (FormatText trueColor xTerm text (some ⟨"", "", styleNames⟩)).1

/- ### Claim C1 -/

/-- The bucket formula as the specification words it (for comparison with
the source's `level`): `round(c / 42.5 + 0.4)` clamped into `[0, 5]`. -/
def claimedLevelC1 (c : ℕ) : ℕ :=
  min ((round ((c : ℚ) / 42.5 + 0.4)).toNat) 5

/-- Closed form of the spec's claimed bucket formula. -/
theorem claimedLevelC1_eq (c : ℕ) :
    claimedLevelC1 c = min ((4 * c + 153) / 170) 5 := by
  unfold claimedLevelC1
  have h : (c : ℚ) / 42.5 + 0.4 + 1 / 2
      = ((4 * c + 153 : ℕ) : ℚ) / ((170 : ℕ) : ℚ) := by
    push_cast
    ring
  rw [round_eq, h, Int.floor_toNat, Nat.floor_div_eq_div]

/-- C1: the claim is false: at channel value 100 the source's bucket
level is `round(100/51 + 0.4) = 2`, while the claimed formula
`round(100/42.5 + 0.4)` clamped to `[0,5]` gives 3. -/
theorem C1_counterexample :
    level 100 = 2 ∧ claimedLevelC1 100 = 3 ∧ level 100 ≠ claimedLevelC1 100 := by
  rw [level_eq, claimedLevelC1_eq]
  norm_num

/-- C1 (amended): the 6-level bucket used by `rgbToXterm` for each byte
channel `c` is `round(c / 51 + 0.4)` clamped into `[0, 5]` — with the
scaling factor `255 / 5 = 51` of the source (the clamp is vacuous, the
rounded value already lies in `[0, 5]`); equivalently it is the integer
division `(10c + 459) / 510`. -/
theorem C1_amended_theorem (c : Fin 256) :
    level c.val = min ((round ((c.val : ℚ) / 51 + 0.4)).toNat) 5 ∧
    level c.val = (10 * c.val + 459) / 510 := by
  constructor
  · have h51 : ((scalingFactor : ℕ) : ℚ) = 51 := by norm_num [scalingFactor]
    have hlev : level c.val = (round ((c.val : ℚ) / 51 + 0.4)).toNat := by
      unfold level
      rw [h51]
    rw [hlev]
    exact (min_eq_left (by rw [← hlev]; exact level_le_five _ (by omega))).symm
  · exact level_eq c.val

/-- Witness for C1 (amended): the amended bucket formula instantiated at
channel value 100. -/
theorem C1_witness :
    level (100 : Fin 256).val =
      min ((round (((100 : Fin 256).val : ℚ) / 51 + 0.4)).toNat) 5 ∧
    level (100 : Fin 256).val = (10 * (100 : Fin 256).val + 459) / 510 :=
  C1_amended_theorem 100

/- ### Claim C2 -/

/-- Evaluation form of `rgbToXterm` with the bucket levels replaced by their integer closed
form, for concrete evaluation. -/
theorem rgbToXterm_eq (col : color) : rgbToXterm col =
    (if (10 * col.r.val + 459) / 510 = (10 * col.g.val + 459) / 510 ∧
        (10 * col.g.val + 459) / 510 = (10 * col.b.val + 459) / 510 then
      if (10 * col.r.val + 459) / 510 = 0 then 0
      else if (10 * col.r.val + 459) / 510 = 5 then 15
      else (232 + ((10 * col.r.val + 459) / 510 - 1) * 5) % 256
    else
      (16 + 36 * ((10 * col.r.val + 459) / 510) +
        6 * ((10 * col.g.val + 459) / 510) +
        (10 * col.b.val + 459) / 510) % 256) := by
  simp only [rgbToXterm, level_eq, xTermBlack, xTermWhite, grayOffset,
    colorOffset, colorFactor1, colorFactor2]

/-- C2: the claim's gray set is wrong: the gray `(1,1,1)` (strictly
between black and white) buckets to level 0 and yields index 0, and
`(254,254,254)` buckets to level 5 and yields index 15; neither index is
in the claimed set `{232, 237, 242, 247, 252}`. -/
theorem C2_counterexample :
    rgbToXterm ⟨1, 1, 1⟩ = 0 ∧ rgbToXterm ⟨254, 254, 254⟩ = 15 ∧
    (0 : ℕ) ∉ ([232, 237, 242, 247, 252] : List ℕ) ∧
    (15 : ℕ) ∉ ([232, 237, 242, 247, 252] : List ℕ) := by
  refine ⟨?_, ?_, by decide, by decide⟩ <;> rw [rgbToXterm_eq] <;> decide

/-- C2 (amended): when the three bucket levels are equal, `rgbToXterm`
returns 0 at level 0, 15 at level 5 and `232 + (level-1)*5` in between;
consequently every gray with `r = g = b` strictly between 0 and 255 maps
into `{0, 15, 232, 237, 242, 247, 252}` (grays whose level is 0 or 5
yield the black/white indices 0 and 15 rather than a ramp entry). -/
theorem C2_theorem :
    (∀ col : color,
      level col.r.val = level col.g.val → level col.g.val = level col.b.val →
        ((level col.r.val = 0 → rgbToXterm col = 0) ∧
         (level col.r.val = 5 → rgbToXterm col = 15) ∧
         (0 < level col.r.val → level col.r.val < 5 →
            rgbToXterm col = 232 + (level col.r.val - 1) * 5))) ∧
    (∀ c : Fin 256, 0 < c.val → c.val < 255 →
        rgbToXterm ⟨c, c, c⟩ ∈ ([0, 15, 232, 237, 242, 247, 252] : List ℕ)) := by
  constructor
  · intro col h1 h2
    simp only [rgbToXterm]
    rw [if_pos ⟨h1, h2⟩]
    refine ⟨fun h0 => ?_, fun h5 => ?_, fun hlo hhi => ?_⟩
    · rw [if_pos h0]
      rfl
    · rw [if_neg (by omega), if_pos h5]
      rfl
    · rw [if_neg (by omega), if_neg (by omega)]
      have hle : level col.r.val ≤ 5 := level_le_five _ (by omega)
      unfold grayOffset
      omega
  · intro c h0 h255
    rw [rgbToXterm_eq]
    have hc : c.val < 256 := c.isLt
    dsimp only
    set l := (10 * c.val + 459) / 510 with hl
    have hle : l ≤ 5 := by omega
    interval_cases l <;> decide

/-- Witness for C2 (amended): the gray `(100,100,100)` lands in the
amended set, and `(1,1,1)` hits the black index through the grayscale
branch. -/
theorem C2_witness :
    rgbToXterm ⟨100, 100, 100⟩ ∈ ([0, 15, 232, 237, 242, 247, 252] : List ℕ) ∧
    rgbToXterm ⟨1, 1, 1⟩ = 0 :=
  ⟨C2_theorem.2 100 (by decide) (by decide),
   (C2_theorem.1 ⟨1, 1, 1⟩ rfl rfl).1 (by rw [level_eq]; decide)⟩

/- ### Claim C3 -/

/-- C3 (confirmed): when the three bucket levels are not all equal,
`rgbToXterm` returns the color-cube index
`16 + 36*levelR + 6*levelG + levelB`. -/
theorem C3_theorem (col : color)
    (h : ¬(level col.r.val = level col.g.val ∧
           level col.g.val = level col.b.val)) :
    rgbToXterm col =
      16 + 36 * level col.r.val + 6 * level col.g.val + level col.b.val := by
  simp only [rgbToXterm]
  rw [if_neg h]
  have hr : level col.r.val ≤ 5 := level_le_five _ (by omega)
  have hg : level col.g.val ≤ 5 := level_le_five _ (by omega)
  have hb : level col.b.val ≤ 5 := level_le_five _ (by omega)
  unfold colorOffset colorFactor1 colorFactor2
  omega

/-- Witness for C3: pure red has levels `(5, 0, 0)`, which are not all
equal, and maps to cube index `16 + 36*5 = 196`. -/
theorem C3_witness : rgbToXterm ⟨255, 0, 0⟩ = 196 := by
  have h := C3_theorem ⟨255, 0, 0⟩ (by simp only [level_eq]; decide)
  rw [h]
  simp only [level_eq]
  decide

/- ### Claim C9 -/

/-- C9 (confirmed): for every color with byte components, each bucket
level is at most 5, so `rgbToXterm` never overflows `uint8` even though
the code performs no explicit clamping: the result is a well-defined
palette entry — on the grayscale branch one of `{0, 15, 232, 237, 242,
247}`, on the color branch a cube index in `[16, 231]`. -/
theorem C9_theorem (col : color) :
    level col.r.val ≤ 5 ∧ level col.g.val ≤ 5 ∧ level col.b.val ≤ 5 ∧
    rgbToXterm col ≤ 255 ∧
    ((level col.r.val = level col.g.val ∧ level col.g.val = level col.b.val) →
       rgbToXterm col ∈ ([0, 15, 232, 237, 242, 247] : List ℕ)) ∧
    (¬(level col.r.val = level col.g.val ∧
       level col.g.val = level col.b.val) →
       16 ≤ rgbToXterm col ∧ rgbToXterm col ≤ 231) := by
  have hrv : col.r.val < 256 := col.r.isLt
  have hgv : col.g.val < 256 := col.g.isLt
  have hbv : col.b.val < 256 := col.b.isLt
  have hr : level col.r.val ≤ 5 := level_le_five _ (by omega)
  have hg : level col.g.val ≤ 5 := level_le_five _ (by omega)
  have hb : level col.b.val ≤ 5 := level_le_five _ (by omega)
  refine ⟨hr, hg, hb, ?_, fun hcond => ?_, fun hcond => ?_⟩
  · rw [rgbToXterm_eq]
    split_ifs <;> omega
  · rw [rgbToXterm_eq]
    simp only [level_eq] at hcond hr
    rw [if_pos hcond]
    generalize hlr : (10 * col.r.val + 459) / 510 = lr at hr ⊢
    interval_cases lr <;> decide
  · rw [rgbToXterm_eq]
    simp only [level_eq] at hcond hr hg hb
    rw [if_neg hcond, Nat.mod_eq_of_lt (by omega)]
    omega

/-- Witness for C9: pure black takes the grayscale branch into the
palette set; pure red takes the color branch into `[16, 231]`. -/
theorem C9_witness :
    rgbToXterm ⟨0, 0, 0⟩ ∈ ([0, 15, 232, 237, 242, 247] : List ℕ) ∧
    16 ≤ rgbToXterm ⟨255, 0, 0⟩ ∧ rgbToXterm ⟨255, 0, 0⟩ ≤ 231 :=
  ⟨(C9_theorem ⟨0, 0, 0⟩).2.2.2.2.1 ⟨rfl, rfl⟩,
   (C9_theorem ⟨255, 0, 0⟩).2.2.2.2.2 (by simp only [level_eq]; decide)⟩

/- ### Shared facts about the formatting pipeline -/

theorem length_ne_zero (a : String) (h : a ≠ "") : a.length ≠ 0 := by
  cases a with
  | mk data =>
    cases data with
    | nil => exact absurd rfl h
    | cons x xs => simp [String.length]

theorem append_length_ne (a b : String) (h : a ≠ "") :
    (a ++ b).length ≠ b.length := by
  rw [String.length_append]
  have := length_ne_zero a h
  omega

/-- Validation either succeeds or produces exactly the `HEXERR`
message for its input. -/
theorem validateHex_cases (hex : String) :
    validateHex hex = none ∨ validateHex hex = some (hexErrMsg hex) := by
  unfold validateHex
  by_cases h : regexMatch hex = true
  · exact Or.inl (by rw [if_pos h])
  · exact Or.inr (by rw [if_neg h])

theorem getColor_err (hex : String) (h : validateHex hex ≠ none) :
    getColor hex = Except.error (hexErrMsg hex) := by
  have hv : validateHex hex = some (hexErrMsg hex) :=
    (validateHex_cases hex).resolve_left h
  unfold getColor
  rw [hv]

theorem getColor_ok_of_valid (hex : String) (h : validateHex hex = none) :
    ∃ col, getColor hex = Except.ok col := by
  unfold getColor
  rw [h]
  dsimp only
  split
  · exact ⟨_, rfl⟩
  · exact ⟨_, rfl⟩

theorem getColor_ok_ne_empty (hex : String) (col : color)
    (h : getColor hex = Except.ok col) : hex ≠ "" := by
  intro he
  subst he
  exact Except.noConfusion (h.symm.trans rfl)

/-- The success path of `FormatText`: with non-empty options, a capable
terminal, and successfully built codes, the result prepends the codes and
appends the reset exactly when some code was prepended. -/
theorem FormatText_ok (tc xt : Bool) (text : String) (opts : Options)
    (hne : ¬(opts.BgColor = "" ∧ opts.FgColor = "" ∧ opts.Styles = []))
    (hcap : ¬(tc = false ∧ xt = false))
    (codes : String) (hb : buildCodes tc opts = Except.ok codes) :
    FormatText tc xt text (some opts) =
      (if codes = "" then text else codes ++ text ++ reset, none) := by
  unfold FormatText
  dsimp only
  rw [if_neg hne, if_neg hcap, hb]
  dsimp only
  by_cases hc : codes = ""
  · subst hc
    rw [String.empty_append, if_pos rfl]
    simp
  · rw [if_neg (append_length_ne codes text hc), if_neg hc,
      String.append_assoc]

theorem append_ne_empty_right (a b : String) (hb : b.length ≠ 0) :
    a ++ b ≠ "" := by
  intro h
  have hl := congrArg String.length h
  rw [String.length_append] at hl
  have h0 : ("" : String).length = 0 := rfl
  omega

theorem buildCodes_fg_tc (hexStr : String) (col : color)
    (h : getColor hexStr = Except.ok col) (hne : hexStr ≠ "") :
    buildCodes true ⟨"", hexStr, []⟩ = Except.ok (getTCCode col foreground) := by
  simp [buildCodes, appendColorCode, hne, h]
  rw [show (String.join [] : String) = "" from rfl, String.empty_append]

theorem buildCodes_fg_xt (hexStr : String) (col : color)
    (h : getColor hexStr = Except.ok col) (hne : hexStr ≠ "") :
    buildCodes false ⟨"", hexStr, []⟩ = Except.ok (getXTCode col foreground) := by
  simp [buildCodes, appendColorCode, hne, h]
  rw [show (String.join [] : String) = "" from rfl, String.empty_append]

theorem buildCodes_bg_xt (hexStr : String) (col : color)
    (h : getColor hexStr = Except.ok col) (hne : hexStr ≠ "") :
    buildCodes false ⟨hexStr, "", []⟩ = Except.ok (getXTCode col background) := by
  simp [buildCodes, appendColorCode, hne, h]
  rw [show (String.join [] : String) = "" from rfl, String.empty_append]

/- ### Claim C4 -/

/-- C4 (confirmed): for a parsable hex color, with the true-color flag
set (regardless of the 256-color flag — true color takes precedence) a
foreground-only format yields exactly `ESC[38;2;R;G;Bm ++ text ++
ESC[0m` with decimal channel values; with only the 256-color flag set the
emitted code is `ESC[38;5;Nm` (foreground) or `ESC[48;5;Nm`
(background) with `N` the reduced palette index. -/
theorem C4_theorem (xt : Bool) (text hexStr : String) (col : color)
    (h : getColor hexStr = Except.ok col) :
    FormatText true xt text (some ⟨"", hexStr, []⟩) =
      ("\x1b[38;2;" ++ toString col.r.val ++ ";" ++ toString col.g.val ++
        ";" ++ toString col.b.val ++ "m" ++ text ++ "\x1b[0m", none) ∧
    FormatText false true text (some ⟨"", hexStr, []⟩) =
      ("\x1b[38;5;" ++ toString (rgbToXterm col) ++ "m" ++ text ++
        "\x1b[0m", none) ∧
    FormatText false true text (some ⟨hexStr, "", []⟩) =
      ("\x1b[48;5;" ++ toString (rgbToXterm col) ++ "m" ++ text ++
        "\x1b[0m", none) := by
  have hne := getColor_ok_ne_empty hexStr col h
  have hopts1 : ¬(("" : String) = "" ∧ hexStr = "" ∧ ([] : List String) = []) :=
    fun hx => hne hx.2.1
  have hopts2 : ¬(hexStr = "" ∧ ("" : String) = "" ∧ ([] : List String) = []) :=
    fun hx => hne hx.1
  have hcodeTC : getTCCode col foreground =
      "\x1b[38;2;" ++ toString col.r.val ++ ";" ++ toString col.g.val ++
        ";" ++ toString col.b.val ++ "m" := by
    unfold getTCCode foreground background fgTrueColor
    rw [if_neg (by decide)]
  have hcodeXTf : getXTCode col foreground =
      "\x1b[38;5;" ++ toString (rgbToXterm col) ++ "m" := by
    unfold getXTCode foreground background fgXterm
    rw [if_neg (by decide)]
  have hcodeXTb : getXTCode col background =
      "\x1b[48;5;" ++ toString (rgbToXterm col) ++ "m" := by
    unfold getXTCode background bgXterm
    rw [if_pos rfl]
  refine ⟨?_, ?_, ?_⟩
  · rw [FormatText_ok true xt text _ hopts1 (by simp) _
      (buildCodes_fg_tc hexStr col h hne), hcodeTC,
      if_neg (append_ne_empty_right _ "m" (by decide))]
    rfl
  · rw [FormatText_ok false true text _ hopts1 (by simp) _
      (buildCodes_fg_xt hexStr col h hne), hcodeXTf,
      if_neg (append_ne_empty_right _ "m" (by decide))]
    rfl
  · rw [FormatText_ok false true text _ hopts2 (by simp) _
      (buildCodes_bg_xt hexStr col h hne), hcodeXTb,
      if_neg (append_ne_empty_right _ "m" (by decide))]
    rfl

/-- Witness for C4: foreground `#FF0000` over text `"hi"` under true
color and under 256-color (pure red reduces to palette index 196). -/
theorem C4_witness :
    FormatText true false "hi" (some ⟨"", "#FF0000", []⟩) =
      ("\x1b[38;2;255;0;0mhi\x1b[0m", none) ∧
    FormatText false true "hi" (some ⟨"", "#FF0000", []⟩) =
      ("\x1b[38;5;196mhi\x1b[0m", none) := by
  have h196 : rgbToXterm ⟨255, 0, 0⟩ = 196 := by
    rw [rgbToXterm_eq]
    decide
  constructor
  · rw [(C4_theorem false "hi" "#FF0000" ⟨255, 0, 0⟩ rfl).1]
    rfl
  · rw [(C4_theorem false "hi" "#FF0000" ⟨255, 0, 0⟩ rfl).2.1, h196]
    rfl

/- ### Claim C5 -/

/-- The validation language as the specification words it:
`^#?[0-9a-fA-F]{6}$` — an optional leading `#` followed by exactly six
case-insensitive hex digits. -/
def specHexPattern (s : String) : Bool :=
  (stripHash s.data).length == 6 && (stripHash s.data).all isHexDigit

/-- The source's grouped regex accepts exactly the strings of the spec's
pattern. -/
theorem regexMatch_eq_spec (s : String) :
    regexMatch s = specHexPattern s := by
  unfold regexMatch specHexPattern
  generalize stripHash s.data = cs
  rcases cs with _ | ⟨a, _ | ⟨b, _ | ⟨c, _ | ⟨d, _ | ⟨e, _ | ⟨f, _ | ⟨g, t⟩⟩⟩⟩⟩⟩⟩ <;>
    simp [Bool.and_assoc]

/-- C5 (confirmed): hex validation succeeds on exactly the strings
matching `^#?[0-9a-fA-F]{6}$`; on a match `getColor` parses the three
2-digit groups in base 16, and on a non-match both `validateHex` and
`getColor` fail with the invalid-hex error. -/
theorem C5_theorem :
    (∀ s : String, validateHex s = none ↔ specHexPattern s = true) ∧
    (∀ a b c d e f : Char,
       isHexDigit a = true → isHexDigit b = true → isHexDigit c = true →
       isHexDigit d = true → isHexDigit e = true → isHexDigit f = true →
       getColor (String.mk ['#', a, b, c, d, e, f]) =
         Except.ok ⟨byteOfChars a b, byteOfChars c d, byteOfChars e f⟩ ∧
       getColor (String.mk [a, b, c, d, e, f]) =
         Except.ok ⟨byteOfChars a b, byteOfChars c d, byteOfChars e f⟩) ∧
    (∀ s : String, specHexPattern s = false →
       validateHex s = some (hexErrMsg s) ∧
       getColor s = Except.error (hexErrMsg s)) := by
  refine ⟨fun s => ?_, fun a b c d e f ha hb hc hd he hf => ?_, fun s hs => ?_⟩
  · unfold validateHex
    rw [regexMatch_eq_spec]
    by_cases h : specHexPattern s = true <;> simp [h]
  · have hstrip1 : stripHash ('#' :: [a, b, c, d, e, f]) = [a, b, c, d, e, f] := by
      simp [stripHash]
    have hane : ¬(a = '#') := by
      intro hae
      subst hae
      exact absurd ha (by decide)
    have hstrip2 : stripHash [a, b, c, d, e, f] = [a, b, c, d, e, f] := by
      simp [stripHash, hane]
    constructor
    · unfold getColor validateHex regexMatch
      rw [show (String.mk ['#', a, b, c, d, e, f]).data
          = '#' :: [a, b, c, d, e, f] from rfl, hstrip1]
      simp [ha, hb, hc, hd, he, hf]
    · unfold getColor validateHex regexMatch
      rw [show (String.mk [a, b, c, d, e, f]).data
          = [a, b, c, d, e, f] from rfl, hstrip2]
      simp [ha, hb, hc, hd, he, hf]
  · have hv : validateHex s = some (hexErrMsg s) := by
      unfold validateHex
      rw [regexMatch_eq_spec, hs]
      rfl
    exact ⟨hv, getColor_err s (by rw [hv]; exact Option.noConfusion)⟩

/-- Witness for C5: `#12AB34` parses to `(18, 171, 52)`; `FF00`,
`#FF00000` and `#FF000H` are rejected with the invalid-hex error. -/
theorem C5_witness :
    getColor "#12AB34" = Except.ok ⟨18, 171, 52⟩ ∧
    validateHex "FF00" = some (hexErrMsg "FF00") ∧
    getColor "#FF000H" = Except.error (hexErrMsg "#FF000H") ∧
    validateHex "#FF00000" = some (hexErrMsg "#FF00000") := by
  refine ⟨?_, (C5_theorem.2.2 "FF00" (by decide)).1,
    (C5_theorem.2.2 "#FF000H" (by decide)).2,
    (C5_theorem.2.2 "#FF00000" (by decide)).1⟩
  have h := (C5_theorem.2.1 '1' '2' 'A' 'B' '3' '4' (by decide) (by decide)
    (by decide) (by decide) (by decide) (by decide)).1
  rw [show ("#12AB34" : String)
      = String.mk ['#', '1', '2', 'A', 'B', '3', '4'] from rfl, h]
  rfl

/- ### Claim C6 -/

/-- The "no options provided" condition of `FormatText` (a `nil` pointer
or all fields empty), as a boolean. -/
def optionsEmptyB : Option Options → Bool
  | none => true
  | some o => o.BgColor == "" && o.FgColor == "" && o.Styles.isEmpty

/-- Whether a requested (non-empty) background or foreground color fails
hex validation. -/
def badHexOpt : Option Options → Bool
  | none => false
  | some o =>
    (!(o.BgColor == "") && (validateHex o.BgColor).isSome) ||
    (!(o.FgColor == "") && (validateHex o.FgColor).isSome)

/-- The requested color whose invalid hex short-circuits `FormatText`:
the background is validated first, so its hex is the offending one when
it is requested and invalid, otherwise the foreground's. -/
def firstBadHex (o : Options) : String :=
  if !(o.BgColor == "") && (validateHex o.BgColor).isSome then o.BgColor
  else o.FgColor

/-- Code building fails exactly when a requested color has an invalid hex
string, and then the error is precisely the invalid-hex (`HEXERR`) error
of the first offending color. -/
theorem buildCodes_cases (tc : Bool) (o : Options) :
    (badHexOpt (some o) = true →
       buildCodes tc o = Except.error (hexErrMsg (firstBadHex o))) ∧
    (badHexOpt (some o) = false → ∃ cs, buildCodes tc o = Except.ok cs) := by
  unfold buildCodes badHexOpt firstBadHex
  by_cases hbg : o.BgColor = ""
  · by_cases hfg : o.FgColor = ""
    · simp [hbg, hfg, appendColorCode]
    · cases hv : validateHex o.FgColor with
      | none =>
        obtain ⟨col, hcol⟩ := getColor_ok_of_valid _ hv
        simp [hbg, hfg, appendColorCode, hv, hcol]
      | some e =>
        have herr := getColor_err o.FgColor (by rw [hv]; exact Option.noConfusion)
        simp [hbg, hfg, appendColorCode, hv, herr]
  · cases hv : validateHex o.BgColor with
    | none =>
      obtain ⟨col, hcol⟩ := getColor_ok_of_valid _ hv
      by_cases hfg : o.FgColor = ""
      · simp [hbg, hfg, appendColorCode, hv, hcol]
      · cases hv2 : validateHex o.FgColor with
        | none =>
          obtain ⟨col2, hcol2⟩ := getColor_ok_of_valid _ hv2
          simp [hbg, hfg, appendColorCode, hv, hv2, hcol, hcol2]
        | some e2 =>
          have herr2 := getColor_err o.FgColor (by rw [hv2]; exact Option.noConfusion)
          simp [hbg, hfg, appendColorCode, hv, hv2, hcol, herr2]
    | some e =>
      have herr := getColor_err o.BgColor (by rw [hv]; exact Option.noConfusion)
      simp [hbg, appendColorCode, hv, herr]

/-- C6 (confirmed): `FormatText` errors exactly when the options are
nil/empty, or no capability flag is set, or a requested color fails hex
validation — the conditions checked in that order, producing respectively
the no-options error, the unsupported-terminal error, and the invalid-hex
error of the first offending color (background before foreground), each
with the unmodified text. -/
theorem C6_theorem (tc xt : Bool) (text : String) (opts : Option Options) :
    ((FormatText tc xt text opts).2 ≠ none ↔
       (optionsEmptyB opts = true ∨ (tc = false ∧ xt = false) ∨
        badHexOpt opts = true)) ∧
    (optionsEmptyB opts = true →
       FormatText tc xt text opts = (text, some noOptionsMsg)) ∧
    (optionsEmptyB opts = false → tc = false → xt = false →
       FormatText tc xt text opts = (text, some sysNoColorMsg)) ∧
    (∀ o : Options, opts = some o → optionsEmptyB opts = false →
       ¬(tc = false ∧ xt = false) → badHexOpt opts = true →
       FormatText tc xt text opts =
         (text, some (hexErrMsg (firstBadHex o)))) := by
  cases opts with
  | none =>
    refine ⟨?_, fun _ => rfl, fun hfalse => absurd hfalse (by decide),
      fun o ho => Option.noConfusion ho⟩
    simp [FormatText, optionsEmptyB]
  | some o =>
    have hempiff : (optionsEmptyB (some o) = true) ↔
        (o.BgColor = "" ∧ o.FgColor = "" ∧ o.Styles = []) := by
      simp [optionsEmptyB, and_assoc]
    by_cases hemp : o.BgColor = "" ∧ o.FgColor = "" ∧ o.Styles = []
    · have hb : optionsEmptyB (some o) = true := hempiff.mpr hemp
      have hft : FormatText tc xt text (some o) = (text, some noOptionsMsg) := by
        unfold FormatText
        dsimp only
        rw [if_pos hemp]
      refine ⟨?_, fun _ => hft,
        fun hfalse => absurd hb (by rw [hfalse]; exact Bool.noConfusion),
        fun o' ho' hfalse _ _ =>
          absurd hb (by rw [hfalse]; exact Bool.noConfusion)⟩
      rw [hft]
      simp [hb]
    · have hb : optionsEmptyB (some o) = false :=
        Bool.eq_false_iff.mpr (fun h => hemp (hempiff.mp h))
      by_cases hcap : tc = false ∧ xt = false
      · have hft : FormatText tc xt text (some o) = (text, some sysNoColorMsg) := by
          unfold FormatText
          dsimp only
          rw [if_neg hemp, if_pos hcap]
        refine ⟨?_,
          fun htrue => absurd htrue (by rw [hb]; exact Bool.noConfusion),
          fun _ _ _ => hft,
          fun o' ho' _ hcap' _ => absurd hcap hcap'⟩
        rw [hft]
        simp [hcap]
      · cases hbad : badHexOpt (some o) with
        | true =>
          have he := (buildCodes_cases tc o).1 hbad
          have hft : FormatText tc xt text (some o) =
              (text, some (hexErrMsg (firstBadHex o))) := by
            unfold FormatText
            dsimp only
            rw [if_neg hemp, if_neg hcap, he]
          refine ⟨?_,
            fun htrue => absurd htrue (by rw [hb]; exact Bool.noConfusion),
            fun _ htc hxt => absurd ⟨htc, hxt⟩ hcap,
            fun o' ho' _ _ _ => ?_⟩
          · rw [hft]
            simp
          · injection ho' with hoo
            subst hoo
            exact hft
        | false =>
          obtain ⟨cs, hcs⟩ := (buildCodes_cases tc o).2 hbad
          have hft := FormatText_ok tc xt text o hemp hcap cs hcs
          refine ⟨?_,
            fun htrue => absurd htrue (by rw [hb]; exact Bool.noConfusion),
            fun _ htc hxt => absurd ⟨htc, hxt⟩ hcap,
            fun o' ho' _ _ hbt => Bool.noConfusion hbt⟩
          rw [hft]
          constructor
          · exact fun hne => absurd rfl hne
          · rintro (h1 | h2 | h3)
            · exact absurd h1 (by rw [hb]; exact Bool.noConfusion)
            · exact absurd h2 hcap
            · exact Bool.noConfusion h3

/-- Witness for C6: empty options give the no-options error even on a
capable terminal; a bad hex with no capability still gives the
unsupported-terminal error; a bad hex with capability gives exactly its
invalid-hex error. -/
theorem C6_witness :
    FormatText true true "t" (some ⟨"", "", []⟩) = ("t", some noOptionsMsg) ∧
    FormatText false false "t" (some ⟨"", "zz", []⟩) =
      ("t", some sysNoColorMsg) ∧
    FormatText true false "t" (some ⟨"", "zz", []⟩) =
      ("t", some (hexErrMsg "zz")) ∧
    (FormatText true false "t" (some ⟨"", "zz", []⟩)).2 ≠ none := by
  refine ⟨(C6_theorem true true "t" (some ⟨"", "", []⟩)).2.1 (by decide),
    (C6_theorem false false "t" (some ⟨"", "zz", []⟩)).2.2.1
      (by decide) rfl rfl, ?_,
    (C6_theorem true false "t" (some ⟨"", "zz", []⟩)).1.mpr
      (Or.inr (Or.inr (by decide)))⟩
  have h := (C6_theorem true false "t" (some ⟨"", "zz", []⟩)).2.2.2
    ⟨"", "zz", []⟩ rfl (by decide) (by decide) (by decide)
  rw [show firstBadHex ⟨"", "zz", []⟩ = "zz" from rfl] at h
  exact h

/- ### Claim C7 -/

/-- C7 (confirmed): whenever `FormatText` returns an error — on any of
its failing paths — the string returned with it is exactly the original
input text. -/
theorem C7_theorem (tc xt : Bool) (text : String) (opts : Option Options)
    (h : (FormatText tc xt text opts).2 ≠ none) :
    (FormatText tc xt text opts).1 = text := by
  cases opts with
  | none => rfl
  | some o =>
    by_cases hemp : o.BgColor = "" ∧ o.FgColor = "" ∧ o.Styles = []
    · have hft : FormatText tc xt text (some o) = (text, some noOptionsMsg) := by
        unfold FormatText
        dsimp only
        rw [if_pos hemp]
      rw [hft]
    · by_cases hcap : tc = false ∧ xt = false
      · have hft : FormatText tc xt text (some o) = (text, some sysNoColorMsg) := by
          unfold FormatText
          dsimp only
          rw [if_neg hemp, if_pos hcap]
        rw [hft]
      · cases hbc : buildCodes tc o with
        | error e =>
          have hft : FormatText tc xt text (some o) = (text, some e) := by
            unfold FormatText
            dsimp only
            rw [if_neg hemp, if_neg hcap, hbc]
          rw [hft]
        | ok cs =>
          have hft := FormatText_ok tc xt text o hemp hcap cs hbc
          rw [hft] at h
          exact absurd rfl h

/-- Witness for C7: a styles-only request on an incapable terminal errors
and hands back the input unchanged. -/
theorem C7_witness :
    (FormatText false false "abc" (some ⟨"", "", ["bold"]⟩)).1 = "abc" :=
  C7_theorem false false "abc" (some ⟨"", "", ["bold"]⟩) (by decide)

/- ### Claim C8 -/

theorem foldl_append_empty (l : List String) (h : ∀ s ∈ l, s = "")
    (acc : String) : l.foldl (· ++ ·) acc = acc := by
  induction l generalizing acc with
  | nil => rfl
  | cons a t ih =>
    rw [List.foldl_cons, h a (List.mem_cons_self a t), String.append_empty]
    exact ih (fun s hs => h s (List.mem_cons_of_mem a hs)) acc

theorem join_map_empty (l : List String)
    (h : ∀ s ∈ l, stylesLookup s = "") :
    String.join (l.map stylesLookup) = "" := by
  unfold String.join
  refine foldl_append_empty _ (fun s hs => ?_) ""
  obtain ⟨t, ht, rfl⟩ := List.mem_map.mp hs
  exact h t ht

theorem buildCodes_styles (tc : Bool) (sts : List String) :
    buildCodes tc ⟨"", "", sts⟩ =
      Except.ok (String.join (sts.map stylesLookup)) := by
  simp [buildCodes, appendColorCode]

/-- C8 (confirmed): the reset code is appended exactly when some escape
code was prepended; when nothing was prepended (all styles unknown, no
colors requested) the text comes back unchanged with no error, and
`StyleText` with an invalid style returns the text unchanged. -/
theorem C8_theorem (tc xt : Bool) (text : String) :
    (∀ (opts : Options) (codes : String),
       ¬(opts.BgColor = "" ∧ opts.FgColor = "" ∧ opts.Styles = []) →
       ¬(tc = false ∧ xt = false) →
       buildCodes tc opts = Except.ok codes →
       FormatText tc xt text (some opts) =
         (if codes = "" then text else codes ++ text ++ reset, none)) ∧
    (∀ sts : List String, sts ≠ [] → ¬(tc = false ∧ xt = false) →
       (∀ s ∈ sts, stylesLookup s = "") →
       FormatText tc xt text (some ⟨"", "", sts⟩) = (text, none)) ∧
    StyleText tc xt text ["invalid-style"] = text := by
  refine ⟨fun opts codes hne hcap hbc =>
      FormatText_ok tc xt text opts hne hcap codes hbc,
    fun sts hne hcap hall => ?_, ?_⟩
  · have h := FormatText_ok tc xt text ⟨"", "", sts⟩
      (fun hx => hne hx.2.2) hcap _ (buildCodes_styles tc sts)
    rw [join_map_empty sts hall, if_pos rfl] at h
    exact h
  · by_cases hcap : tc = false ∧ xt = false
    · obtain ⟨htc, hxt⟩ := hcap
      subst htc
      subst hxt
      have hft : FormatText false false text
          (some ⟨"", "", ["invalid-style"]⟩) = (text, some sysNoColorMsg) := by
        unfold FormatText
        dsimp only
        rw [if_neg (by simp), if_pos ⟨rfl, rfl⟩]
      unfold StyleText
      rw [hft]
    · have h := FormatText_ok tc xt text ⟨"", "", ["invalid-style"]⟩
        (by simp) hcap _ (buildCodes_styles tc _)
      rw [show String.join (List.map stylesLookup ["invalid-style"]) = ""
          from rfl, if_pos rfl] at h
      unfold StyleText
      rw [h]

/-- Witness for C8: an unknown style alone leaves the text untouched with
no error, also through `StyleText`. -/
theorem C8_witness :
    FormatText true false "hi" (some ⟨"", "", ["nope"]⟩) = ("hi", none) ∧
    StyleText true false "hi" ["invalid-style"] = "hi" :=
  ⟨(C8_theorem true false "hi").2.1 ["nope"] (by decide) (by simp)
     (by decide),
   (C8_theorem true false "hi").2.2⟩

/- ### Claim C10 -/

/-- C10: the claim is false for the empty string: `""` is an invalid hex
input (`validateHex` rejects it), and `GetColor` does return the
invalid-hex error for it with no capability — but `ForegroundText` (and
`FormatText`) returns the no-options error for it, not the
unsupported-terminal error, because an empty color string counts as "not
requested". -/
theorem C10_counterexample :
    validateHex "" = some (hexErrMsg "") ∧
    GetColor false false "" foreground = ("", some (hexErrMsg "")) ∧
    ForegroundText false false "txt" "" = ("txt", some noOptionsMsg) ∧
    noOptionsMsg ≠ sysNoColorMsg :=
  ⟨rfl, rfl, rfl, by decide⟩

/-- C10 (amended): for every non-empty invalid hex string with neither
capability flag set, `GetColor` returns the invalid-hex error while
`FormatText` — and hence `ForegroundText` and `BackgroundText` — returns
the unsupported-terminal error: `GetColor` validates before checking
capability, `FormatText` checks capability first. -/
theorem C10_theorem (s : String) (hne : s ≠ "") (hv : validateHex s ≠ none)
    (ctx : ColorContext) (text : String) :
    GetColor false false s ctx = ("", some (hexErrMsg s)) ∧
    FormatText false false text (some ⟨"", s, []⟩) =
      (text, some sysNoColorMsg) ∧
    FormatText false false text (some ⟨s, "", []⟩) =
      (text, some sysNoColorMsg) ∧
    ForegroundText false false text s = (text, some sysNoColorMsg) ∧
    BackgroundText false false text s = (text, some sysNoColorMsg) := by
  have herr := getColor_err s hv
  have h1 : GetColor false false s ctx = ("", some (hexErrMsg s)) := by
    unfold GetColor
    rw [herr]
  have h2 : FormatText false false text (some ⟨"", s, []⟩) =
      (text, some sysNoColorMsg) := by
    unfold FormatText
    dsimp only
    rw [if_neg (fun hx => hne hx.2.1), if_pos ⟨rfl, rfl⟩]
  have h3 : FormatText false false text (some ⟨s, "", []⟩) =
      (text, some sysNoColorMsg) := by
    unfold FormatText
    dsimp only
    rw [if_neg (fun hx => hne hx.1), if_pos ⟨rfl, rfl⟩]
  exact ⟨h1, h2, h3, h2, h3⟩

/-- Witness for C10 (amended): the non-empty invalid hex `"nope"`. -/
theorem C10_witness :
    GetColor false false "nope" foreground = ("", some (hexErrMsg "nope")) ∧
    ForegroundText false false "t" "nope" = ("t", some sysNoColorMsg) := by
  have h := C10_theorem "nope" (by decide) (by decide) foreground "t"
  exact ⟨h.1, h.2.2.2.1⟩

end Colorize
